import Mathlib

/-!
Verification development for the `FsBlobStorage` content-addressable blob
store (`src/fs-blob-storage.js`).  The JavaScript source is shallowly
embedded: byte buffers are `List Nat` (each byte `< 256` at use sites),
JavaScript strings are `List Char`, the filesystem is an explicit state
threaded through every operation, and Node's `crypto` MD5 is embedded as a
full executable MD5 implementation with the same incremental
`update`/`digest` interface the source relies on.
-/

set_option autoImplicit false

/-! ## MD5 digest engine (embedding of Node `crypto.createHash('md5')`) -/

/-- The 64 per-round additive constants of MD5 (`floor(abs(sin(i+1)) * 2^32)`). -/
def kTable : List Nat :=
  [0xd76aa478, 0xe8c7b756, 0x242070db, 0xc1bdceee,
   0xf57c0faf, 0x4787c62a, 0xa8304613, 0xfd469501,
   0x698098d8, 0x8b44f7af, 0xffff5bb1, 0x895cd7be,
   0x6b901122, 0xfd987193, 0xa679438e, 0x49b40821,
   0xf61e2562, 0xc040b340, 0x265e5a51, 0xe9b6c7aa,
   0xd62f105d, 0x02441453, 0xd8a1e681, 0xe7d3fbc8,
   0x21e1cde6, 0xc33707d6, 0xf4d50d87, 0x455a14ed,
   0xa9e3e905, 0xfcefa3f8, 0x676f02d9, 0x8d2a4c8a,
   0xfffa3942, 0x8771f681, 0x6d9d6122, 0xfde5380c,
   0xa4beea44, 0x4bdecfa9, 0xf6bb4b60, 0xbebfbc70,
   0x289b7ec6, 0xeaa127fa, 0xd4ef3085, 0x04881d05,
   0xd9d4d039, 0xe6db99e5, 0x1fa27cf8, 0xc4ac5665,
   0xf4292244, 0x432aff97, 0xab9423a7, 0xfc93a039,
   0x655b59c3, 0x8f0ccc92, 0xffeff47d, 0x85845dd1,
   0x6fa87e4f, 0xfe2ce6e0, 0xa3014314, 0x4e0811a1,
   0xf7537e82, 0xbd3af235, 0x2ad7d2bb, 0xeb86d391]

/-- The 64 per-round left-rotation amounts of MD5. -/
def sTable : List Nat :=
  [7, 12, 17, 22, 7, 12, 17, 22, 7, 12, 17, 22, 7, 12, 17, 22,
   5, 9, 14, 20, 5, 9, 14, 20, 5, 9, 14, 20, 5, 9, 14, 20,
   4, 11, 16, 23, 4, 11, 16, 23, 4, 11, 16, 23, 4, 11, 16, 23,
   6, 10, 15, 21, 6, 10, 15, 21, 6, 10, 15, 21, 6, 10, 15, 21]

/-- 32-bit left rotation (argument assumed `< 2^32`). -/
def rotl32 (x s : Nat) : Nat :=
  ((x <<< s) ||| (x >>> (32 - s))) % 4294967296

/-- 32-bit bitwise complement (argument assumed `< 2^32`). -/
def comp32 (x : Nat) : Nat := x ^^^ 0xffffffff

/-- The four 32-bit words of the running MD5 state. -/
structure MDState where
  a : Nat
  b : Nat
  c : Nat
  d : Nat
deriving DecidableEq

/-- One MD5 round: `m` is the 16-word message schedule of the current block,
`s` the running `(A, B, C, D)` tuple, `i` the round index (0..63). -/
def MD5.stepRound (m : List Nat) (s : Nat × Nat × Nat × Nat) (i : Nat) :
    Nat × Nat × Nat × Nat :=
  let A := s.1
  let B := s.2.1
  let C := s.2.2.1
  let D := s.2.2.2
  let fg : Nat × Nat :=
    if i < 16 then ((B &&& C) ||| (comp32 B &&& D), i)
    else if i < 32 then ((D &&& B) ||| (comp32 D &&& C), (5 * i + 1) % 16)
    else if i < 48 then (B ^^^ C ^^^ D, (3 * i + 5) % 16)
    else (C ^^^ (B ||| comp32 D), (7 * i) % 16)
  let f := (fg.1 + A + kTable.getD i 0 + m.getD fg.2 0) % 4294967296
  (D, (B + rotl32 f (sTable.getD i 0)) % 4294967296, B, C)

/-- Process one 64-byte block (given as a list of bytes, little-endian words). -/
def processBlock (st : MDState) (block : List Nat) : MDState :=
  let m := (List.range 16).map (fun j =>
    block.getD (4 * j) 0 + 256 * block.getD (4 * j + 1) 0 +
      65536 * block.getD (4 * j + 2) 0 + 16777216 * block.getD (4 * j + 3) 0)
  let r := (List.range 64).foldl (MD5.stepRound m) (st.a, st.b, st.c, st.d)
  ⟨(st.a + r.1) % 4294967296, (st.b + r.2.1) % 4294967296,
   (st.c + r.2.2.1) % 4294967296, (st.d + r.2.2.2) % 4294967296⟩

/-- Incremental MD5 context: running state, total byte count fed so far,
and the pending partial block (always shorter than 64 bytes). -/
structure MD5Ctx where
  state : MDState
  len : Nat
  buf : List Nat
deriving DecidableEq

/-- Fresh MD5 context (the `crypto.createHash('md5')` initial state). -/
def MD5.init : MD5Ctx := ⟨⟨0x67452301, 0xefcdab89, 0x98badcfe, 0x10325476⟩, 0, []⟩

/-- Feed a single byte to the context, flushing a full 64-byte block. -/
def MD5.update1 (c : MD5Ctx) (byte : Nat) : MD5Ctx :=
  let buf := c.buf ++ [byte]
  if buf.length = 64 then ⟨processBlock c.state buf, c.len + 1, []⟩
  else ⟨c.state, c.len + 1, buf⟩

/-- `hash.update(chunk)`: feed a chunk of bytes incrementally. -/
def MD5.update (c : MD5Ctx) (bytes : List Nat) : MD5Ctx :=
  bytes.foldl MD5.update1 c

/-- The 8 little-endian bytes of `n` (used for the MD5 length padding). -/
def le8 (n : Nat) : List Nat :=
  (List.range 8).map (fun i => (n >>> (8 * i)) % 256)

/-- Lowercase hexadecimal digit for a nibble. -/
def hexChar (n : Nat) : Char :=
  Char.ofNat (if n < 10 then 48 + n else 87 + n)

/-- The four little-endian bytes of a 32-bit word. -/
def leBytes (w : Nat) : List Nat :=
  [w % 256, (w >>> 8) % 256, (w >>> 16) % 256, (w >>> 24) % 256]

/-- `hash.digest('hex')`: pad the pending buffer, process the final block(s)
and render the 16-byte digest as 32 lowercase hex characters. -/
def MD5.digestHex (c : MD5Ctx) : List Char :=
  let bl := c.buf.length
  let pad := if bl < 56 then 55 - bl else 119 - bl
  let msg := c.buf ++ 128 :: (List.replicate pad 0 ++ le8 (8 * c.len))
  let s :=
    if msg.length ≤ 64 then processBlock c.state msg
    else processBlock (processBlock c.state (msg.take 64)) (msg.drop 64)
  (leBytes s.a ++ leBytes s.b ++ leBytes s.c ++ leBytes s.d).foldr
    (fun byte acc => hexChar (byte / 16) :: hexChar (byte % 16) :: acc) []

/-- One-shot MD5 of a whole buffer, as the buffered `put` computes it:
`crypto.createHash('md5').update(content).digest('hex')`. -/
def md5hex (content : List Nat) : List Char :=
  MD5.digestHex (MD5.update MD5.init content)

/-! ## Path model (embedding of Node `path.join`, `path.dirname`, JS `slice`) -/

/-- Join already-filtered, nonempty path segments with `/` separators. -/
def joinSep : List (List Char) → List Char
  | [] => []
  | [p] => p
  | p :: q :: rest => p ++ '/' :: joinSep (q :: rest)

/-- Node `path.join`: zero-length parts are skipped; joining nothing yields
`"."`.  (Our segments contain no `.`/`..`/`/`, so no further normalization
applies.) -/
def pathJoin (parts : List (List Char)) : List Char :=
  match parts.filter (fun p => !p.isEmpty) with
  | [] => ['.']
  | ps => joinSep ps

/-- JS `String.prototype.slice(a, b)` for `0 ≤ a ≤ b`: clamps past the end of
the string, so an out-of-range slice yields a truncated or empty result. -/
def jsSlice (s : List Char) (a b : Nat) : List Char :=
  (s.drop a).take (b - a)

/-- Node `path.dirname`: everything before the last `/`, or `"."` if none. -/
def dirname (p : List Char) : List Char :=
  match p.reverse.dropWhile (fun c => c ≠ '/') with
  | [] => ['.']
  | _ :: rest => rest.reverse

/-! ## Filesystem state

The store only observes the filesystem through `fs.exists`, `fs.writeFile`
(and `createWriteStream`, which for a fully consumed stream writes the same
bytes), `fs.open`/`read`/`close`, `fs.createReadStream`, `fs.copyFile`,
`fs.unlink` and `mkdirp`.  We model it as an association list from absolute
paths to byte contents plus a set of created directories. -/

/-- The error outcomes the store produces. -/
inductive Err where
  /-- `new Error('Item "id" not found')` thrown by `get`/`getStream`. -/
  | itemNotFound (id : List Char)
  /-- `new Error('File already exists')` thrown by `putStream`. -/
  | fileExists
  /-- An `ENOENT` error propagated from the filesystem (`unlink`, `copyFile`). -/
  | enoent (p : List Char)
deriving DecidableEq

instance exceptDecidableEq {ε α : Type} [DecidableEq ε] [DecidableEq α] :
    DecidableEq (Except ε α) := fun a b =>
  match a, b with
  | .ok x, .ok y =>
    if h : x = y then isTrue (by rw [h])
    else isFalse (by intro hc; cases hc; exact h rfl)
  | .error x, .error y =>
    if h : x = y then isTrue (by rw [h])
    else isFalse (by intro hc; cases hc; exact h rfl)
  | .ok _, .error _ => isFalse (by intro hc; cases hc)
  | .error _, .ok _ => isFalse (by intro hc; cases hc)

/-- First-match lookup in a path-to-content association list. -/
def lookupFile : List (List Char × List Nat) → List Char → Option (List Nat)
  | [], _ => none
  | e :: rest, p => if e.1 = p then some e.2 else lookupFile rest p

/-- Remove every entry for a path from an association list. -/
def removeFile : List (List Char × List Nat) → List Char → List (List Char × List Nat)
  | [], _ => []
  | e :: rest, p => if e.1 = p then removeFile rest p else e :: removeFile rest p

/-- Filesystem state: files (newest entry first) and created directories. -/
structure FS where
  files : List (List Char × List Nat)
  dirs : List (List Char)
deriving DecidableEq

/-- Contents of the file at `p`, if it exists (open + full read). -/
def FS.read (fs : FS) (p : List Char) : Option (List Nat) :=
  lookupFile fs.files p

/-- `fs.exists` (the `existsP` helper of the source). -/
def FS.existsP (fs : FS) (p : List Char) : Bool :=
  (fs.read p).isSome

/-- `fs.writeFile` / a fully drained `fs.createWriteStream`: create or
replace the file at `p`. -/
def FS.write (fs : FS) (p : List Char) (v : List Nat) : FS :=
  ⟨(p, v) :: fs.files, fs.dirs⟩

/-- `mkdirp`: ensure a directory chain exists (never fails). -/
def FS.mkdirp (fs : FS) (d : List Char) : FS :=
  ⟨fs.files, d :: fs.dirs⟩

/-- `fs.unlink`: remove the file at `p`, failing with `ENOENT` if absent. -/
def FS.unlink (fs : FS) (p : List Char) : Except Err FS :=
  if fs.existsP p then Except.ok ⟨removeFile fs.files p, fs.dirs⟩
  else Except.error (Err.enoent p)

/-- `fs.copyFile src dst`: read `src` and (over)write its bytes at `dst`. -/
def FS.copyFile (fs : FS) (src dst : List Char) : Except Err FS :=
  match fs.read src with
  | none => Except.error (Err.enoent src)
  | some v => Except.ok (fs.write dst v)

/-! ## The FsBlobStorage class -/

/-- Constructor state: `{dir, tmp, depth}` (defaults `process.cwd()`,
`'/tmp'`, `3`). -/
structure FsBlobStorage where
  dir : List Char
  tmp : List Char
  depth : Nat
deriving DecidableEq

/-- `getDirpath(id)`: join `dir` with `depth` two-character slices
`id.slice(i*2, i*2 + 2)` for `i = 0 .. depth-1`. -/
def FsBlobStorage.getDirpath (st : FsBlobStorage) (id : List Char) : List Char :=
  pathJoin (st.dir :: (List.range st.depth).map (fun i => jsSlice id (i * 2) (i * 2 + 2)))

/-- `getFilepath(id) = path.join(getDirpath(id), id)`. -/
def FsBlobStorage.getFilepath (st : FsBlobStorage) (id : List Char) : List Char :=
  pathJoin [st.getDirpath id, id]

/-- `tmpFilename()` joins the tmp root with a freshly generated unique name;
the generated `uuid()` is a parameter of the model. -/
def FsBlobStorage.tmpFilename (st : FsBlobStorage) (name : List Char) : List Char :=
  pathJoin [st.tmp, name]

/-- Result of the buffered `put`: the exists-branch resolves with the bare
`md5` string, the write branch with the `{md5, byteCount}` object. -/
inductive PutResult where
  | bare (md5 : List Char)
  | pair (md5 : List Char) (byteCount : Nat)
deriving DecidableEq

/-- The identifier carried by either shape of `put` result. -/
def PutResult.md5 : PutResult → List Char
  | .bare m => m
  | .pair m _ => m

/-- Buffered `put(content)`: hash, resolve the shard path, no-op if the blob
file already exists, otherwise `mkdirp` the shard directory and write. -/
def FsBlobStorage.put (st : FsBlobStorage) (fs : FS) (content : List Nat) :
    PutResult × FS :=
  let byteCount := content.length
  let m := md5hex content
  let dir := st.getDirpath m
  let filepath := st.getFilepath m
  if fs.existsP filepath then (PutResult.bare m, fs)
  else (PutResult.pair m byteCount, (fs.mkdirp dir).write filepath content)

/-- Modelled from the spec: `getRangeLength` lives in `lib/utils.js`, which is
not part of the sources; the spec says the caller supplies a range
`[start, end]` from which the engine computes the read length, with
`get(id, [0, len b])` returning all of `b` and `[s, e]` returning `b[s:e]`,
so the length of range `(s, e)` is `e - s`. -/
def getRangeLength (range : Nat × Nat) : Nat := range.2 - range.1

/-- `get(id, range)`: allocate a buffer of the range length, fail with
`itemNotFound` if the blob file is absent, otherwise `fs.read` the span
starting at `range[0]` into the buffer.  Buffer cells the read does not
reach keep their uninitialized (`none`) contents. -/
def FsBlobStorage.get (st : FsBlobStorage) (fs : FS) (id : List Char)
    (range : Nat × Nat) : Except Err (List (Option Nat)) :=
  let filepath := st.getFilepath id
  let rangeLength := getRangeLength range
  match fs.read filepath with
  | none => Except.error (Err.itemNotFound id)
  | some content =>
    let bytes := (content.drop range.1).take rangeLength
    Except.ok (bytes.map some ++ List.replicate (rangeLength - bytes.length) none)

/-- `getStream(id, range)`: same existence check as `get`; the produced
read stream yields the whole file, or — with a range — Node's
`createReadStream` semantics of bytes `start .. end` inclusive. -/
def FsBlobStorage.getStream (st : FsBlobStorage) (fs : FS) (id : List Char)
    (range : Option (Nat × Nat)) : Except Err (List Nat) :=
  let filepath := st.getFilepath id
  match fs.read filepath with
  | none => Except.error (Err.itemNotFound id)
  | some content =>
    Except.ok (match range with
      | none => content
      | some (s, e) => (content.drop s).take (e + 1 - s))

/-- `delete(id)`: unlink the blob file directly; the filesystem `ENOENT`
propagates if it does not exist. -/
def FsBlobStorage.delete (st : FsBlobStorage) (fs : FS) (id : List Char) :
    Except Err FS :=
  fs.unlink (st.getFilepath id)

/-- `has(id)`: existence check on the resolved shard path. -/
def FsBlobStorage.has (st : FsBlobStorage) (fs : FS) (id : List Char) : Bool :=
  fs.existsP (st.getFilepath id)

/-- `putStream(readStream)`: the stream's chunks are a parameter, as is the
generated unique tmp name.  Fail with `fileExists` if the staging path is
taken; otherwise drain the stream to the staging file while feeding every
chunk to an incremental MD5; then either unlink the staging file (blob
already present) or `mkdirp` + copy + unlink.  Returns the final filesystem
alongside the result so that error outcomes also expose the state. -/
def FsBlobStorage.putStream (st : FsBlobStorage) (fs : FS)
    (chunks : List (List Nat)) (tmpName : List Char) :
    Except Err (List Char × Nat) × FS :=
  let tmpFile := st.tmpFilename tmpName
  if fs.existsP tmpFile then (Except.error Err.fileExists, fs)
  else
    let fs1 := fs.write tmpFile chunks.flatten
    let m := MD5.digestHex (chunks.foldl MD5.update MD5.init)
    let byteCount := (chunks.map List.length).sum
    let filepath := st.getFilepath m
    if fs1.existsP filepath then
      match fs1.unlink tmpFile with
      | Except.ok fs2 => (Except.ok (m, byteCount), fs2)
      | Except.error e => (Except.error e, fs1)
    else
      let fs2 := fs1.mkdirp (dirname filepath)
      match fs2.copyFile tmpFile filepath with
      | Except.error e => (Except.error e, fs2)
      | Except.ok fs3 =>
        match fs3.unlink tmpFile with
        | Except.ok fs4 => (Except.ok (m, byteCount), fs4)
        | Except.error e => (Except.error e, fs3)

/-! ## Concrete fixtures -/

/-- A store rooted at `root` with the default shard depth 3. -/
def stR : FsBlobStorage := ⟨"root".data, "/tmp".data, 3⟩

/-- The empty filesystem. -/
def fs0 : FS := ⟨[], []⟩

/-- The 3-byte payload `abc`. -/
def bufABC : List Nat := [97, 98, 99]

/-- A filesystem whose staging path `/tmp/u1` is already occupied. -/
def fsT : FS := ⟨[(stR.tmpFilename "u1".data, [])], []⟩

/-! ## Helper lemmas -/

set_option maxRecDepth 40000 in
/-- Sanity: the digest engine embedding is the real MD5 (RFC 1321 test
vector for `"abc"`). -/
theorem md5hex_abc_vector :
    md5hex [97, 98, 99] = "900150983cd24fb0d6963f7d28e17f72".data := by decide

theorem bang_isEmpty_of_ne_nil {l : List Char} (h : l ≠ []) : (!l.isEmpty) = true := by
  cases l with
  | nil => exact absurd rfl h
  | cons a t => rfl

theorem pathJoin_ne_nil (parts : List (List Char)) : pathJoin parts ≠ [] := by
  unfold pathJoin
  cases h : parts.filter (fun p => !p.isEmpty) with
  | nil => simp
  | cons q t =>
    have hq : q ≠ [] := by
      have hmem : q ∈ parts.filter (fun p => !p.isEmpty) := by
        rw [h]; exact List.mem_cons_self q t
      have := List.of_mem_filter hmem
      cases q with
      | nil => simp at this
      | cons a b => simp
    cases t with
    | nil => simpa [joinSep] using hq
    | cons r t2 =>
      simp only [joinSep]
      intro hcontra
      exact hq (List.append_eq_nil.mp hcontra).1

theorem pathJoin_all_nonempty (parts : List (List Char))
    (h : ∀ p ∈ parts, p ≠ []) (hne : parts ≠ []) : pathJoin parts = joinSep parts := by
  unfold pathJoin
  rw [List.filter_eq_self.mpr (fun a ha => bang_isEmpty_of_ne_nil (h a ha))]
  cases parts with
  | nil => exact absurd rfl hne
  | cons q t => rfl

theorem getFilepath_decomp (st : FsBlobStorage) (id : List Char) (hid : id ≠ []) :
    st.getFilepath id = st.getDirpath id ++ '/' :: id := by
  unfold FsBlobStorage.getFilepath
  have h1 : st.getDirpath id ≠ [] := pathJoin_ne_nil _
  rw [pathJoin_all_nonempty]
  · rfl
  · intro p hp
    simp only [List.mem_cons, List.not_mem_nil, or_false] at hp
    rcases hp with rfl | rfl
    · exact h1
    · exact hid
  · simp

theorem lookupFile_removeFile (l : List (List Char × List Nat)) (p : List Char) :
    lookupFile (removeFile l p) p = none := by
  induction l with
  | nil => rfl
  | cons e rest ih =>
    by_cases h : e.1 = p
    · simp [removeFile, h, ih]
    · simp [removeFile, h, lookupFile, ih]

theorem unlink_read_none (fs fs' : FS) (p : List Char)
    (h : fs.unlink p = Except.ok fs') : fs'.read p = none := by
  unfold FS.unlink at h
  split at h
  · have : fs' = ⟨removeFile fs.files p, fs.dirs⟩ := by
      cases h; rfl
    rw [this]
    simp [FS.read, lookupFile_removeFile]
  · cases h

theorem MD5.update_append (c : MD5Ctx) (a b : List Nat) :
    MD5.update c (a ++ b) = MD5.update (MD5.update c a) b := by
  simp [MD5.update, List.foldl_append]

theorem foldl_update_flatten (chunks : List (List Nat)) (c : MD5Ctx) :
    chunks.foldl MD5.update c = MD5.update c chunks.flatten := by
  induction chunks generalizing c with
  | nil => simp [MD5.update]
  | cons a t ih => simp [List.foldl_cons, ih, MD5.update_append]

theorem filter_nonempty_map_length (l1 l2 : List (List Char))
    (h : l1.map List.length = l2.map List.length) :
    (l1.filter (fun p => !p.isEmpty)).map List.length =
      (l2.filter (fun p => !p.isEmpty)).map List.length := by
  induction l1 generalizing l2 with
  | nil =>
    cases l2 with
    | nil => rfl
    | cons b t2 => simp at h
  | cons a t ih =>
    cases l2 with
    | nil => simp at h
    | cons b t2 =>
      simp only [List.map_cons, List.cons.injEq] at h
      cases a with
      | nil =>
        cases b with
        | nil => simpa [List.filter] using ih t2 h.2
        | cons x xs => simp at h
      | cons y ys =>
        cases b with
        | nil => simp at h
        | cons x xs =>
          simp only [List.filter, List.isEmpty_cons, Bool.not_false, List.map_cons]
          exact congrArg₂ List.cons (by simpa using h.1) (ih t2 h.2)

theorem joinSep_length_congr (l1 l2 : List (List Char))
    (h : l1.map List.length = l2.map List.length) :
    (joinSep l1).length = (joinSep l2).length := by
  induction l1 generalizing l2 with
  | nil =>
    cases l2 with
    | nil => rfl
    | cons b t2 => simp at h
  | cons a t ih =>
    cases l2 with
    | nil => simp at h
    | cons b t2 =>
      simp only [List.map_cons, List.cons.injEq] at h
      cases t with
      | nil =>
        cases t2 with
        | nil => simpa [joinSep] using h.1
        | cons d t2' => simp at h
      | cons c t' =>
        cases t2 with
        | nil => simp at h
        | cons d t2' =>
          simp only [joinSep, List.length_append, List.length_cons]
          rw [h.1, ih (d :: t2') h.2]

theorem pathJoin_length_congr (l1 l2 : List (List Char))
    (h : l1.map List.length = l2.map List.length) :
    (pathJoin l1).length = (pathJoin l2).length := by
  unfold pathJoin
  have hf := filter_nonempty_map_length l1 l2 h
  cases h1 : l1.filter (fun p => !p.isEmpty) with
  | nil =>
    rw [h1] at hf
    cases h2 : l2.filter (fun p => !p.isEmpty) with
    | nil => rfl
    | cons b t2 => rw [h2] at hf; simp at hf
  | cons a t =>
    rw [h1] at hf
    cases h2 : l2.filter (fun p => !p.isEmpty) with
    | nil => rw [h2] at hf; simp at hf
    | cons b t2 =>
      rw [h2] at hf
      exact joinSep_length_congr (a :: t) (b :: t2) hf

theorem jsSlice_seg_length (id : List Char) (d i : Nat)
    (hlen : 2 * d ≤ id.length) (hi : i < d) :
    (jsSlice id (i * 2) (i * 2 + 2)).length = 2 := by
  unfold jsSlice
  simp only [List.length_take, List.length_drop]
  omega

theorem segs_map_length (id : List Char) (d : Nat) (hlen : 2 * d ≤ id.length) :
    (((List.range d).map (fun i => jsSlice id (i * 2) (i * 2 + 2))).map List.length) =
      (List.range d).map (fun _ => 2) := by
  rw [List.map_map]
  apply List.map_congr_left
  intro i hi
  exact jsSlice_seg_length id d i hlen (List.mem_range.mp hi)

theorem getDirpath_length_eq (st : FsBlobStorage) (id1 id2 : List Char)
    (h1 : 2 * st.depth ≤ id1.length) (h2 : 2 * st.depth ≤ id2.length) :
    (st.getDirpath id1).length = (st.getDirpath id2).length := by
  unfold FsBlobStorage.getDirpath
  apply pathJoin_length_congr
  simp only [List.map_cons, List.cons.injEq, true_and]
  exact (segs_map_length id1 st.depth h1).trans (segs_map_length id2 st.depth h2).symm

/-! ## Claim theorems -/

set_option maxRecDepth 40000 in
/-- C1: at the failing input `abc`, the first buffered `put` resolves with
the `{md5, byteCount}` pair, but the repeat `put` — whose blob file already
exists — resolves with the bare `md5` string (while indeed leaving the
filesystem untouched), so the repeat result is not the identifier/byte-count
pair the claim (and the spec) promise. -/
theorem c1_second_put_resolves_bare_md5 :
    (stR.put fs0 bufABC).1 = PutResult.pair (md5hex bufABC) 3 ∧
    (stR.put (stR.put fs0 bufABC).2 bufABC).1 = PutResult.bare (md5hex bufABC) ∧
    (stR.put (stR.put fs0 bufABC).2 bufABC).2 = (stR.put fs0 bufABC).2 ∧
    PutResult.bare (md5hex bufABC) ≠ PutResult.pair (md5hex bufABC) 3 := by decide

/-- C2: after storing a buffer `b` by `put` (into a filesystem not already
holding a file at its shard path), `get` with any valid range `[s, e]`
(`s ≤ e ≤ len b`) returns a buffer holding exactly the bytes `b[s:e]` — in
particular `[0, len b]` returns exactly `b`.  (`some` marks buffer cells the
read initialized; a valid range initializes all of them.) -/
theorem c2_put_get_range (st : FsBlobStorage) (fs : FS) (b : List Nat) (s e : Nat)
    (hse : s ≤ e) (hel : e ≤ b.length)
    (habs : fs.read (st.getFilepath (md5hex b)) = none) :
    st.get (st.put fs b).2 (md5hex b) (s, e) =
      Except.ok (((b.drop s).take (e - s)).map some) := by
  have hex : fs.existsP (st.getFilepath (md5hex b)) = false := by
    simp [FS.existsP, habs]
  simp only [FsBlobStorage.put, hex, Bool.false_eq_true, if_false]
  simp only [FsBlobStorage.get, FS.read, FS.write, FS.mkdirp, lookupFile, if_pos,
    getRangeLength]
  have hb : ((b.drop s).take (e - s)).length = e - s := by
    simp only [List.length_take, List.length_drop]
    omega
  simp [hb]

set_option maxRecDepth 40000 in
theorem c2_put_get_range_witness :
    stR.get (stR.put fs0 bufABC).2 (md5hex bufABC) (0, 3) =
      Except.ok (((bufABC.drop 0).take (3 - 0)).map some) :=
  c2_put_get_range stR fs0 bufABC 0 3 (by decide) (by decide) rfl

/-- C3: for an identifier of at least `2 * depth` characters the resolved
file path is `root/seg1/.../segN/<identifier>`, the `N = depth` two-character
segments being the first `2 * depth` characters of the identifier in order
(witness: `900150983cd24fb0d6963f7d28e17f72` at depth 3 resolves to
`root/90/01/50/900150983cd24fb0d6963f7d28e17f72`). -/
theorem c3_filepath_sharding (st : FsBlobStorage) (id : List Char)
    (hdir : st.dir ≠ []) (hlen : 2 * st.depth ≤ id.length) (hpos : id ≠ []) :
    st.getFilepath id =
      joinSep (st.dir :: (List.range st.depth).map (fun i => (id.drop (2 * i)).take 2))
        ++ '/' :: id := by
  have hsegs : ∀ p ∈ (List.range st.depth).map (fun i => jsSlice id (i * 2) (i * 2 + 2)),
      p ≠ [] := by
    intro p hp
    rcases List.mem_map.mp hp with ⟨i, hi, rfl⟩
    have h2 := jsSlice_seg_length id st.depth i hlen (List.mem_range.mp hi)
    intro hnil
    rw [hnil] at h2
    simp at h2
  have hdp : st.getDirpath id =
      joinSep (st.dir :: (List.range st.depth).map (fun i => jsSlice id (i * 2) (i * 2 + 2))) := by
    apply pathJoin_all_nonempty
    · intro p hp
      rcases List.mem_cons.mp hp with rfl | hp2
      · exact hdir
      · exact hsegs p hp2
    · simp
  have hmap : (List.range st.depth).map (fun i => jsSlice id (i * 2) (i * 2 + 2)) =
      (List.range st.depth).map (fun i => (id.drop (2 * i)).take 2) := by
    apply List.map_congr_left
    intro i _
    unfold jsSlice
    have h2 : i * 2 + 2 - i * 2 = 2 := by omega
    rw [h2, Nat.mul_comm]
  rw [getFilepath_decomp st id hpos, hdp, hmap]

set_option maxRecDepth 40000 in
theorem c3_filepath_sharding_witness :
    stR.getFilepath "900150983cd24fb0d6963f7d28e17f72".data =
      "root/90/01/50/900150983cd24fb0d6963f7d28e17f72".data :=
  (c3_filepath_sharding stR "900150983cd24fb0d6963f7d28e17f72".data
    (by decide) (by decide) (by decide)).trans (by decide)

/-- C4: shard path resolution is injective: two distinct identifiers of
length at least `2 * depth` (and nonempty, as every fixed-length digest is)
never resolve to the same file path. -/
theorem c4_filepath_injective (st : FsBlobStorage) (id1 id2 : List Char)
    (h1 : 2 * st.depth ≤ id1.length) (h2 : 2 * st.depth ≤ id2.length)
    (p1 : id1 ≠ []) (p2 : id2 ≠ []) (hne : id1 ≠ id2) :
    st.getFilepath id1 ≠ st.getFilepath id2 := by
  intro heq
  rw [getFilepath_decomp st id1 p1, getFilepath_decomp st id2 p2] at heq
  have hl := getDirpath_length_eq st id1 id2 h1 h2
  have htail := (List.append_inj heq hl).2
  injection htail with _ hid
  exact hne hid

set_option maxRecDepth 40000 in
theorem c4_filepath_injective_witness :
    stR.getFilepath "900150983cd24fb0d6963f7d28e17f72".data ≠
      stR.getFilepath "00000000000000000000000000000000".data :=
  c4_filepath_injective stR
    "900150983cd24fb0d6963f7d28e17f72".data
    "00000000000000000000000000000000".data
    (by decide) (by decide) (by decide) (by decide) (by decide)

/-- C5: `get` and `getStream` fail with the NotFound error exactly when no
file exists at the resolved shard path; when the file exists they never
raise NotFound. -/
theorem c5_get_getStream_notFound_iff (st : FsBlobStorage) (fs : FS)
    (id : List Char) (range : Nat × Nat) (orange : Option (Nat × Nat)) :
    (st.get fs id range = Except.error (Err.itemNotFound id) ↔
      fs.read (st.getFilepath id) = none) ∧
    (st.getStream fs id orange = Except.error (Err.itemNotFound id) ↔
      fs.read (st.getFilepath id) = none) := by
  cases h : fs.read (st.getFilepath id) <;>
    simp [FsBlobStorage.get, FsBlobStorage.getStream, h]

/-- C6: `delete` fails with the propagated filesystem `ENOENT` exactly when
no blob file exists at the resolved shard path — it never silently
succeeds on a missing identifier. -/
theorem c6_delete_enoent_iff (st : FsBlobStorage) (fs : FS) (id : List Char) :
    st.delete fs id = Except.error (Err.enoent (st.getFilepath id)) ↔
      fs.read (st.getFilepath id) = none := by
  unfold FsBlobStorage.delete FS.unlink FS.existsP
  cases h : fs.read (st.getFilepath id) <;> simp [h]

/-- C7: a streamed put delivered as any chunking of a byte sequence yields
the same identifier as the buffered put of the flattened bytes: the
incremental digest over the chunks equals the one-shot digest `put`
computes (and the byte count is the sum of the chunk lengths). -/
theorem c7_putStream_put_same_md5 (st : FsBlobStorage) (fs fs2 : FS)
    (chunks : List (List Nat)) (tmpName : List Char)
    (h : fs.existsP (st.tmpFilename tmpName) = false) :
    (st.putStream fs chunks tmpName).1 =
      Except.ok (md5hex chunks.flatten, (chunks.map List.length).sum) ∧
    ((st.put fs2 chunks.flatten).1).md5 = md5hex chunks.flatten := by
  constructor
  · have hm : MD5.digestHex (chunks.foldl MD5.update MD5.init) = md5hex chunks.flatten := by
      rw [foldl_update_flatten]; rfl
    simp only [FsBlobStorage.putStream, h, Bool.false_eq_true, if_false, hm]
    by_cases hbp : (fs.write (st.tmpFilename tmpName) chunks.flatten).existsP
        (st.getFilepath (md5hex chunks.flatten))
    · have hu : (fs.write (st.tmpFilename tmpName) chunks.flatten).unlink
          (st.tmpFilename tmpName) = Except.ok
            ⟨removeFile ((st.tmpFilename tmpName, chunks.flatten) :: fs.files)
              (st.tmpFilename tmpName), fs.dirs⟩ := by
        simp [FS.unlink, FS.existsP, FS.read, FS.write, lookupFile]
      simp [hbp, hu]
    · have hrd : ((fs.write (st.tmpFilename tmpName) chunks.flatten).mkdirp
          (dirname (st.getFilepath (md5hex chunks.flatten)))).read
            (st.tmpFilename tmpName) = some chunks.flatten := by
        simp [FS.read, FS.mkdirp, FS.write, lookupFile]
      simp only [hbp, Bool.false_eq_true, if_false, FS.copyFile, hrd]
      by_cases hpt : st.getFilepath (md5hex chunks.flatten) = st.tmpFilename tmpName <;>
        simp [FS.unlink, FS.existsP, FS.read, FS.write, FS.mkdirp, lookupFile, hpt]
  · by_cases hx : fs2.existsP (st.getFilepath (md5hex chunks.flatten)) <;>
      simp [FsBlobStorage.put, hx, PutResult.md5]

set_option maxRecDepth 80000 in
theorem c7_putStream_put_same_md5_witness :
    ((stR.putStream fs0 [[97], [98, 99]] "u1".data).1 =
      Except.ok (md5hex ([[97], [98, 99]] : List (List Nat)).flatten,
        (([[97], [98, 99]] : List (List Nat)).map List.length).sum)) ∧
    ((stR.put fs0 ([[97], [98, 99]] : List (List Nat)).flatten).1).md5 =
      md5hex ([[97], [98, 99]] : List (List Nat)).flatten :=
  c7_putStream_put_same_md5 stR fs0 fs0 [[97], [98, 99]] "u1".data (by decide)

/-- C8: whenever a streamed put runs to completion (returns `ok`), the
staging file is gone from the resulting filesystem — it was unlinked in the
blob-already-exists branch and copied-then-unlinked in the other branch. -/
theorem c8_staging_file_deleted (st : FsBlobStorage) (fs : FS)
    (chunks : List (List Nat)) (tmpName : List Char) (r : List Char × Nat)
    (h : (st.putStream fs chunks tmpName).1 = Except.ok r) :
    ((st.putStream fs chunks tmpName).2).read (st.tmpFilename tmpName) = none := by
  by_cases h0 : fs.existsP (st.tmpFilename tmpName)
  · simp [FsBlobStorage.putStream, h0] at h
  · simp only [FsBlobStorage.putStream, h0, Bool.false_eq_true, if_false] at h ⊢
    by_cases h1 : (fs.write (st.tmpFilename tmpName) chunks.flatten).existsP
        (st.getFilepath (MD5.digestHex (chunks.foldl MD5.update MD5.init)))
    · simp only [h1, if_true] at h ⊢
      cases hu : (fs.write (st.tmpFilename tmpName) chunks.flatten).unlink
          (st.tmpFilename tmpName) with
      | ok fs2 =>
        simp only [hu]
        exact unlink_read_none _ _ _ hu
      | error e => simp [hu] at h
    · simp only [h1, Bool.false_eq_true, if_false] at h ⊢
      cases hc : ((fs.write (st.tmpFilename tmpName) chunks.flatten).mkdirp
          (dirname (st.getFilepath (MD5.digestHex
            (chunks.foldl MD5.update MD5.init))))).copyFile
          (st.tmpFilename tmpName)
          (st.getFilepath (MD5.digestHex (chunks.foldl MD5.update MD5.init))) with
      | error e => simp [hc] at h
      | ok fs3 =>
        simp only [hc] at h ⊢
        cases hu : fs3.unlink (st.tmpFilename tmpName) with
        | ok fs4 =>
          simp only [hu]
          exact unlink_read_none _ _ _ hu
        | error e => simp [hu] at h

set_option maxRecDepth 80000 in
theorem c8_staging_file_deleted_witness :
    ((stR.putStream fs0 [[97], [98, 99]] "u1".data).2).read
      (stR.tmpFilename "u1".data) = none :=
  c8_staging_file_deleted stR fs0 [[97], [98, 99]] "u1".data
    (md5hex bufABC, 3) (by decide)

/-- C9: a streamed put whose freshly generated staging path already exists
fails immediately with the Conflict error and leaves the filesystem
untouched — no bytes are written and no blob file is created. -/
theorem c9_staging_collision_conflict (st : FsBlobStorage) (fs : FS)
    (chunks : List (List Nat)) (tmpName : List Char)
    (h : fs.existsP (st.tmpFilename tmpName) = true) :
    st.putStream fs chunks tmpName = (Except.error Err.fileExists, fs) := by
  simp [FsBlobStorage.putStream, h]

theorem c9_staging_collision_conflict_witness :
    stR.putStream fsT [[1]] "u1".data = (Except.error Err.fileExists, fsT) :=
  c9_staging_collision_conflict stR fsT [[1]] "u1".data (by decide)

/-- C10: undersized identifiers are not rejected: `getDirpath`/`getFilepath`
still return paths (JS `slice` clamps past the end, producing truncated or
empty segments that `path.join` drops), so distinct short identifiers each
resolve under collapsed directory paths, and the empty identifier collapses
onto the storage root itself. -/
theorem c10_short_identifiers_collapse :
    stR.getDirpath ['a'] = "root/a".data ∧
    stR.getFilepath ['a'] = "root/a/a".data ∧
    stR.getFilepath ([] : List Char) = "root".data ∧
    stR.getDirpath ['a', 'b', 'c'] = "root/ab/c".data ∧
    stR.getFilepath ['a', 'b', 'c'] = "root/ab/c/abc".data ∧
    (['a'] : List Char) ≠ ['b'] ∧
    stR.getFilepath ['b'] = "root/b/b".data := by decide
